import Mathlib

/-!
Verification of the SmokeBot session-coordination logic.

Shallow embedding of the Go repository `Luccifer/SmokeBot`:
* `internal/domain/{session,user}.go` — the data model,
* `internal/repository/sqlite/{database,session_repository,user_repository}.go`
  — the SQLite store, modelled as pure state (`DB`) with the SQL statements
  translated row-by-row (an `UPDATE ... WHERE` becomes `updWhere`, a
  `SELECT ... WHERE x = ?` becomes `List.find?`, `ORDER BY` becomes an
  insertion sort),
* `internal/service/smoke_service.go` — the business operations, with
  `time.Now()` threaded as an explicit `now : Nat` parameter (seconds; a day
  is 86400 seconds, local-time offsets are not modelled),
* `internal/bot/bot.go` — the notification fan-out, reduced to the recipient
  sets and name lists it computes (message text layout is irrelevant here).

Fallible Go functions returning `(T, error)` become `Except SmokeErr T`;
the storage-failure error paths of the Go code have no counterpart in the
pure model (the pure store never fails), so only the domain errors remain.
-/

namespace SmokeBot

/-- Session status (`internal/domain/session.go`, `SessionStatus`). -/
inductive SessionStatus where
  | active
  | completed
  | cancelled
  deriving DecidableEq

/-- Response kind (`internal/domain/session.go`, `ResponseType`). -/
inductive ResponseType where
  | accepted
  | acceptedDelayed
  | denied
  | remote
  deriving DecidableEq

/-- A smoking session (`internal/domain/session.go`, `Session`). -/
structure Session where
  id : Nat
  initiatorID : Int
  status : SessionStatus
  createdAt : Nat
  completedAt : Option Nat
  deriving DecidableEq

/-- A participant's response to a session (`internal/domain/session.go`,
`SessionResponse`). -/
structure SessionResponse where
  id : Nat
  sessionID : Nat
  userID : Int
  response : ResponseType
  createdAt : Nat
  deriving DecidableEq

/-- A bot user (`internal/domain/user.go`, `User`). -/
structure User where
  id : Int
  username : String
  firstName : String
  lastName : String
  isRemoteToday : Bool
  remoteUntil : Option Nat
  isHidden : Bool
  createdAt : Nat
  updatedAt : Nat
  deriving DecidableEq

/-- `UPDATE ... SET (f) WHERE (q)` over a table held as a list of rows. -/
def updWhere (q : α → Bool) (f : α → α) (l : List α) : List α :=
  l.map fun x => if q x then f x else x

/-- Insertion step of the sort used to model SQL `ORDER BY`. -/
def insertLe (le : α → α → Bool) (x : α) : List α → List α
  | [] => [x]
  | y :: ys => if le x y then x :: y :: ys else y :: insertLe le x ys

/-- Insertion sort used to model SQL `ORDER BY` (the claims under
verification are all order-insensitive, so any sorted permutation is an
adequate model of the unspecified-tie SQL ordering). -/
def sortLe (le : α → α → Bool) : List α → List α
  | [] => []
  | x :: xs => insertLe le x (sortLe le xs)

/-- The SQLite database of `internal/repository/sqlite/database.go`
(`initSchema`): tables `users`, `sessions`, `session_responses`, plus the
`AUTOINCREMENT` counters for the two generated primary keys. -/
structure DB where
  users : List User
  sessions : List Session
  responses : List SessionResponse
  nextSessionID : Nat
  nextResponseID : Nat
  deriving DecidableEq

/-- A freshly initialised database (empty tables, `AUTOINCREMENT` at 1). -/
def DB.empty : DB := ⟨[], [], [], 1, 1⟩

/-! ### Session repository (`session_repository.go`) -/

/-- `SessionRepository.Create`: INSERT with generated id, `created_at = now`. -/
def sessionCreate (db : DB) (initiatorID : Int) (status : SessionStatus)
    (now : Nat) : DB × Session :=
  let s : Session := ⟨db.nextSessionID, initiatorID, status, now, none⟩
  ({ db with sessions := db.sessions ++ [s],
             nextSessionID := db.nextSessionID + 1 }, s)

/-- `SessionRepository.GetByID`: `SELECT ... WHERE id = ?` (primary key). -/
def sessionGetByID (db : DB) (id : Nat) : Option Session :=
  db.sessions.find? fun s => decide (s.id = id)

/-- `SessionRepository.GetActiveSession`: `SELECT ... WHERE status =
'active' ORDER BY created_at DESC LIMIT 1` — filter by status, sort by
`created_at` descending, take the first row. -/
def getActiveSession (db : DB) : Option Session :=
  (sortLe (fun a b => decide (b.createdAt ≤ a.createdAt))
    (db.sessions.filter fun s => decide (s.status = SessionStatus.active))).head?

/-- `SessionRepository.Update`: `UPDATE sessions SET status, completed_at
WHERE id = ?`. -/
def sessionUpdate (db : DB) (s : Session) : DB :=
  { db with sessions :=
      (updWhere (fun t => decide (t.id = s.id))
        (fun t => { t with status := s.status, completedAt := s.completedAt })
        db.sessions) }

/-- `SessionRepository.CompleteSession`: `UPDATE sessions SET status =
'completed', completed_at = now WHERE id = ?` — note: unconditional, no
status guard. -/
def completeSessionRepo (db : DB) (sessionID : Nat) (now : Nat) : DB :=
  { db with sessions :=
      (updWhere (fun t => decide (t.id = sessionID))
        (fun t => { t with status := SessionStatus.completed,
                           completedAt := some now })
        db.sessions) }

/-- The `(session_id, user_id)` key of the `UNIQUE(session_id, user_id)`
constraint on `session_responses`. -/
def pairPred (sessionID : Nat) (userID : Int) (r : SessionResponse) : Bool :=
  decide (r.sessionID = sessionID ∧ r.userID = userID)

/-- `SessionRepository.AddResponse`: `INSERT ... ON CONFLICT(session_id,
user_id) DO UPDATE SET response = ?, created_at = ?` — an upsert keyed on
the `UNIQUE(session_id, user_id)` constraint. -/
def addResponse (db : DB) (sessionID : Nat) (userID : Int)
    (rt : ResponseType) (now : Nat) : DB :=
  if db.responses.any (pairPred sessionID userID) then
    { db with responses :=
        (updWhere (pairPred sessionID userID)
          (fun r => { r with response := rt, createdAt := now }) db.responses) }
  else
    { db with
      responses := db.responses ++ [⟨db.nextResponseID, sessionID, userID, rt, now⟩],
      nextResponseID := db.nextResponseID + 1 }

/-- `SessionRepository.GetResponses`: `SELECT ... WHERE session_id = ?
ORDER BY created_at`. -/
def getResponses (db : DB) (sessionID : Nat) : List SessionResponse :=
  sortLe (fun a b => decide (a.createdAt ≤ b.createdAt))
    (db.responses.filter fun r => decide (r.sessionID = sessionID))

/-! ### User repository (`user_repository.go`) -/

/-- The username forced hidden by the repository ("Auto-hide user
\"eyerise\"" in `Create` and `Update`). -/
def reservedHiddenName : String := "eyerise"

/-- The auto-hide rule applied by `UserRepository.Create` and
`UserRepository.Update`. -/
def applyHiddenPolicy (u : User) : User :=
  if u.username = reservedHiddenName then { u with isHidden := true } else u

/-- `UserRepository.Create`. -/
def userCreate (db : DB) (u : User) (now : Nat) : DB :=
  let u' := applyHiddenPolicy u
  { db with users := db.users ++ [{ u' with createdAt := now, updatedAt := now }] }

/-- `UserRepository.GetByID` (primary-key lookup; `none` models the
`sql.ErrNoRows → (nil, nil)` case). -/
def userGetByID (db : DB) (id : Int) : Option User :=
  db.users.find? fun u => decide (u.id = id)

/-- `UserRepository.GetAll`: `SELECT ... ORDER BY username`. -/
def userGetAll (db : DB) : List User :=
  sortLe (fun a b => decide (a.username < b.username ∨ a.username = b.username))
    db.users

/-- The column assignments of `UserRepository.Update` applied to a stored
row `v`: every column except `id` and `created_at` is taken from the given
record `u`, and `updated_at` is set to now. -/
def updateCols (u : User) (now : Nat) (v : User) : User :=
  { v with username := u.username, firstName := u.firstName,
           lastName := u.lastName, isRemoteToday := u.isRemoteToday,
           remoteUntil := u.remoteUntil, isHidden := u.isHidden,
           updatedAt := now }

/-- `UserRepository.Update`: `UPDATE users SET <updateCols> WHERE id = ?`,
after applying the auto-hide rule to the given record. -/
def userUpdate (db : DB) (u : User) (now : Nat) : DB :=
  { db with users :=
      (updWhere (fun v => decide (v.id = u.id))
        (updateCols (applyHiddenPolicy u) now) db.users) }

/-- `UserRepository.SetRemoteStatus`: `UPDATE users SET is_remote_today = 1,
remote_until = ?, updated_at = now WHERE id = ?`. -/
def setRemoteStatusRepo (db : DB) (userID : Int) (untilT : Nat) (now : Nat) : DB :=
  { db with users :=
      (updWhere (fun v => decide (v.id = userID))
        (fun v => { v with isRemoteToday := true, remoteUntil := some untilT,
                           updatedAt := now })
        db.users) }

/-- The `WHERE is_remote_today = 1 AND remote_until < ?` condition of
`ClearExpiredRemoteStatus` (a NULL `remote_until` never compares true). -/
def remoteExpired (u : User) (now : Nat) : Bool :=
  match u.remoteUntil with
  | some t => u.isRemoteToday && decide (t < now)
  | none => false

/-- `UserRepository.ClearExpiredRemoteStatus`. -/
def clearExpiredRemoteStatus (db : DB) (now : Nat) : DB :=
  { db with users :=
      (updWhere (fun u => remoteExpired u now)
        (fun u => { u with isRemoteToday := false, remoteUntil := none,
                           updatedAt := now })
        db.users) }

/-! ### Service layer (`smoke_service.go`) -/

/-- The domain errors of the service layer (`fmt.Errorf` values, identified
by their message text in the Go code). -/
inductive SmokeErr where
  | sessionAlreadyActive
  | sessionNotFound
  | sessionNotActive
  | userNotFound
  deriving DecidableEq

/-- `SmokeService.StartSession`: check for an active session, then create. -/
def StartSession (db : DB) (initiatorID : Int) (now : Nat) :
    DB × Except SmokeErr Session :=
  match getActiveSession db with
  | some _ => (db, Except.error SmokeErr.sessionAlreadyActive)
  | none =>
    let p := sessionCreate db initiatorID SessionStatus.active now
    (p.1, Except.ok p.2)

def secondsPerDay : Nat := 86400

/-- `time.Date(y, m, d, 23, 59, 59, 0, loc)` for the day containing `now`:
the last second of the current day. -/
def endOfDay (now : Nat) : Nat :=
  now / secondsPerDay * secondsPerDay + (secondsPerDay - 1)

/-- `SmokeService.SetRemoteStatus`: remote until end of the current day. -/
def SetRemoteStatusSvc (db : DB) (userID : Int) (now : Nat) : DB :=
  setRemoteStatusRepo db userID (endOfDay now) now

/-- `SmokeService.ClearRemoteStatus`. -/
def ClearRemoteStatusSvc (db : DB) (userID : Int) (now : Nat) :
    DB × Except SmokeErr Unit :=
  match userGetByID db userID with
  | none => (db, Except.error SmokeErr.userNotFound)
  | some u =>
    (userUpdate db { u with isRemoteToday := false, remoteUntil := none } now,
      Except.ok ())

/-- `SmokeService.RespondToSession`: verify the session exists and is
active, perform the remote side effect for a `remote` response, then
upsert the response row. -/
def RespondToSession (db : DB) (sessionID : Nat) (userID : Int)
    (rt : ResponseType) (now : Nat) : DB × Except SmokeErr Unit :=
  match sessionGetByID db sessionID with
  | none => (db, Except.error SmokeErr.sessionNotFound)
  | some s =>
    if s.status ≠ SessionStatus.active then
      (db, Except.error SmokeErr.sessionNotActive)
    else
      let db1 := if rt = ResponseType.remote then SetRemoteStatusSvc db userID now else db
      (addResponse db1 sessionID userID rt now, Except.ok ())

/-- `SmokeService.CompleteSession` (delegates to the repository; no status
guard). -/
def CompleteSessionSvc (db : DB) (sessionID : Nat) (now : Nat) : DB :=
  completeSessionRepo db sessionID now

/-- `SmokeService.CancelSession`: only checks that the session exists, then
unconditionally writes status `cancelled` and `completed_at = now`. -/
def CancelSessionSvc (db : DB) (sessionID : Nat) (now : Nat) :
    DB × Except SmokeErr Unit :=
  match sessionGetByID db sessionID with
  | none => (db, Except.error SmokeErr.sessionNotFound)
  | some s =>
    (sessionUpdate db { s with status := SessionStatus.cancelled,
                               completedAt := some now }, Except.ok ())

/-- `SmokeService.AutoCompleteOldSessions`: complete the active session when
it is older than 15 minutes, returning it for announcement. -/
def AutoCompleteOldSessions (db : DB) (now : Nat) : DB × Option Session :=
  match getActiveSession db with
  | none => (db, none)
  | some s =>
    if 15 * 60 < now - s.createdAt then (completeSessionRepo db s.id now, some s)
    else (db, none)

/-- `SmokeService.CleanupOldSessions` (startup recovery, 1-hour threshold). -/
def CleanupOldSessions (db : DB) (now : Nat) : DB :=
  match getActiveSession db with
  | none => db
  | some s =>
    if 60 * 60 < now - s.createdAt then completeSessionRepo db s.id now else db

/-- `SmokeService.GetActiveUsers`: clear expired remote statuses, then keep
every user other than the excluded one who is neither remote nor hidden. -/
def GetActiveUsers (db : DB) (excludeUserID : Int) (now : Nat) : DB × List User :=
  let db1 := clearExpiredRemoteStatus db now
  (db1, (userGetAll db1).filter fun u =>
    decide (u.id ≠ excludeUserID) && !u.isRemoteToday && !u.isHidden)

/-- `SmokeService.RegisterUser`: upsert by id — on an existing user only
username / first name / last name are overwritten before `Update`. -/
def RegisterUser (db : DB) (id : Int) (username firstName lastName : String)
    (now : Nat) : DB :=
  match userGetByID db id with
  | some u =>
    userUpdate db { u with username := username, firstName := firstName,
                           lastName := lastName } now
  | none =>
    userCreate db ⟨id, username, firstName, lastName, false, none, false, 0, 0⟩ now

/-- Display name used throughout the bot: username, with first-name
fallback when the username is empty. -/
def displayName (u : User) : String :=
  if u.username = "" then u.firstName else u.username

/-- The (response, user) pairs that survive the hidden-user filter in
`SmokeService.GetSessionSummary` — exactly the rows whose display names the
summary renders (rows whose user is missing are skipped; the
`session_responses.user_id` foreign key makes that case unreachable). -/
def summaryUsers (db : DB) (sessionID : Nat) : List (ResponseType × User) :=
  (getResponses db sessionID).filterMap fun r =>
    match userGetByID db r.userID with
    | none => none
    | some u => if u.isHidden then none else some (r.response, u)

/-- The "Идут сейчас" name group of `GetSessionSummary`. -/
def summaryAccepted (db : DB) (sid : Nat) : List String :=
  ((summaryUsers db sid).filter fun p => decide (p.1 = ResponseType.accepted)).map
    fun p => displayName p.2

/-- The "Придут в течение 5 минут" name group of `GetSessionSummary`. -/
def summaryAcceptedDelayed (db : DB) (sid : Nat) : List String :=
  ((summaryUsers db sid).filter fun p => decide (p.1 = ResponseType.acceptedDelayed)).map
    fun p => displayName p.2

/-- The "Не идут" name group of `GetSessionSummary`. -/
def summaryDenied (db : DB) (sid : Nat) : List String :=
  ((summaryUsers db sid).filter fun p => decide (p.1 = ResponseType.denied)).map
    fun p => displayName p.2

/-- The loop of `SmokeService.GetSessionRespondents`: keep only accepted /
accepted-delayed responses, deduplicated by user id via `userMap` (`seen`).
A user id missing from the store is skipped (the Go code would append a nil
pointer there; the foreign key makes it unreachable). -/
def respondentsGo (db : DB) : List SessionResponse → List Int → List User
  | [], _ => []
  | r :: rs, seen =>
    if (r.response = ResponseType.accepted ∨ r.response = ResponseType.acceptedDelayed)
        ∧ r.userID ∉ seen then
      match userGetByID db r.userID with
      | some u => u :: respondentsGo db rs (r.userID :: seen)
      | none => respondentsGo db rs (r.userID :: seen)
    else respondentsGo db rs seen

/-- `SmokeService.GetSessionRespondents`. -/
def GetSessionRespondents (db : DB) (sessionID : Nat) : List User :=
  respondentsGo db (getResponses db sessionID) []

/-! ### Notification fan-out (`bot.go`), reduced to recipient sets -/

/-- The `user == nil || !user.IsHidden` guard the bot applies before
sending to a user id. -/
def notifyOK (db : DB) (uid : Int) : Bool :=
  match userGetByID db uid with
  | none => true
  | some u => !u.isHidden

/-- The `responder != nil && responder.IsHidden` early-return guard of
`Bot.notifyParticipants`. -/
def responderIsHidden (db : DB) (responderID : Int) : Bool :=
  match userGetByID db responderID with
  | none => false
  | some u => u.isHidden

/-- Recipient ids of `Bot.notifyParticipants`: nobody when the responder is
hidden; otherwise the initiator (when distinct from the responder and not
hidden), plus — for accepted / accepted-delayed responses only — every other
accepted / accepted-delayed responder that is not hidden. -/
def responseNotifyRecipients (db : DB) (s : Session) (responderID : Int)
    (rt : ResponseType) : List Int :=
  if responderIsHidden db responderID then []
  else
    (if s.initiatorID ≠ responderID ∧ notifyOK db s.initiatorID
      then [s.initiatorID] else []) ++
    (if rt = ResponseType.accepted ∨ rt = ResponseType.acceptedDelayed then
      (getResponses db s.id).filterMap fun r =>
        if r.userID = responderID ∨ r.userID = s.initiatorID then none
        else if (r.response = ResponseType.accepted
                  ∨ r.response = ResponseType.acceptedDelayed)
                ∧ notifyOK db r.userID then some r.userID
        else none
    else [])

/-- The response loop of `Bot.notifySessionCompleted`: notify accepted /
accepted-delayed responders once each (`notifiedUsers` is `notified`),
skipping hidden users but still marking them notified. -/
def completedGo (db : DB) : List SessionResponse → List Int → List Int
  | [], _ => []
  | r :: rs, notified =>
    if (r.response = ResponseType.accepted ∨ r.response = ResponseType.acceptedDelayed)
        ∧ r.userID ∉ notified then
      (if notifyOK db r.userID then [r.userID] else [])
        ++ completedGo db rs (r.userID :: notified)
    else completedGo db rs notified

/-- Recipient ids of `Bot.notifySessionCompleted` (auto-complete
announcement): the initiator (unless hidden), then the accepted responders,
deduplicated, with the initiator pre-marked as notified. -/
def autoCompletedRecipients (db : DB) (s : Session) : List Int :=
  (if notifyOK db s.initiatorID then [s.initiatorID] else []) ++
  completedGo db (getResponses db s.id) [s.initiatorID]

/-- Outcome of the `/cancel` handler. -/
inductive CancelOutcome where
  | noActive
  | notInitiator
  | cancelFailed
  | cancelled
  deriving DecidableEq

/-- `Bot.handleCancel`: resolves the current active session, rejects
non-initiators, collects the respondents, cancels, and messages every
respondent other than the canceller. Returns the new state, the outcome, and
the recipient ids of the cancellation notice. -/
def handleCancel (db : DB) (fromID : Int) (now : Nat) :
    DB × CancelOutcome × List Int :=
  match getActiveSession db with
  | none => (db, CancelOutcome.noActive, [])
  | some s =>
    if s.initiatorID ≠ fromID then (db, CancelOutcome.notInitiator, [])
    else
      let respondents := GetSessionRespondents db s.id
      match CancelSessionSvc db s.id now with
      | (db1, Except.error _) => (db1, CancelOutcome.cancelFailed, [])
      | (db1, Except.ok _) =>
        (db1, CancelOutcome.cancelled,
          (respondents.filter fun u => decide (u.id ≠ fromID)).map User.id)

/-- The users who receive the cancellation notice in `Bot.handleCancel`:
the session's respondents (per `GetSessionRespondents`) minus the
canceller. -/
def cancelRecipientsUsers (db : DB) (sessionID : Nat) (cancellerID : Int) :
    List User :=
  (GetSessionRespondents db sessionID).filter fun u => decide (u.id ≠ cancellerID)

/-! ### Reachability by coordinator operations -/

/-- Number of sessions currently stored with status `active`. -/
def activeCount (db : DB) : Nat :=
  db.sessions.countP fun s => decide (s.status = SessionStatus.active)

/-- States reachable from a fresh database by any sequence of the
coordinator operations named in the specification: `startSession`,
`respondToSession`, `cancelSession`, `completeSession`, `autoCompleteStale`
(modelled by `AutoCompleteOldSessions`, with `CleanupOldSessions` the
startup-recovery instance). -/
inductive Reachable : DB → Prop where
  | init : Reachable DB.empty
  | start {db} (i : Int) (now : Nat) :
      Reachable db → Reachable (StartSession db i now).1
  | respond {db} (sid : Nat) (uid : Int) (rt : ResponseType) (now : Nat) :
      Reachable db → Reachable (RespondToSession db sid uid rt now).1
  | cancel {db} (sid : Nat) (now : Nat) :
      Reachable db → Reachable (CancelSessionSvc db sid now).1
  | complete {db} (sid : Nat) (now : Nat) :
      Reachable db → Reachable (CompleteSessionSvc db sid now)
  | autoComplete {db} (now : Nat) :
      Reachable db → Reachable (AutoCompleteOldSessions db now).1
  | cleanup {db} (now : Nat) :
      Reachable db → Reachable (CleanupOldSessions db now)

/-! ### Generic list lemmas -/

theorem mem_insertLe {le : α → α → Bool} {x a : α} {l : List α} :
    a ∈ insertLe le x l ↔ a = x ∨ a ∈ l := by
  induction l with
  | nil => simp [insertLe]
  | cons y ys ih =>
    simp only [insertLe]
    split
    · simp [or_comm, or_assoc, or_left_comm]
    · simp [ih]
      tauto

theorem mem_sortLe {le : α → α → Bool} {a : α} {l : List α} :
    a ∈ sortLe le l ↔ a ∈ l := by
  induction l with
  | nil => simp [sortLe]
  | cons x xs ih => simp [sortLe, mem_insertLe, ih]

theorem find?_updWhere (q : α → Bool) (f : α → α) (l : List α)
    (hf : ∀ x, q x = true → q (f x) = true) :
    (updWhere q f l).find? q = (l.find? q).map f := by
  induction l with
  | nil => simp [updWhere]
  | cons x xs ih =>
    by_cases hx : q x = true
    · simp [updWhere, List.find?_cons, hx, hf x hx]
    · simp only [updWhere, List.map_cons] at *
      rw [if_neg hx]
      simp [List.find?_cons, hx, ih]

theorem countP_updWhere_le {q p : α → Bool} {f : α → α} (l : List α)
    (hf : ∀ x, q x = true → p (f x) = false) :
    (updWhere q f l).countP p ≤ l.countP p := by
  induction l with
  | nil => simp [updWhere]
  | cons x xs ih =>
    simp only [updWhere, List.map_cons, List.countP_cons] at *
    by_cases hx : q x = true
    · simp only [if_pos hx, hf x hx]
      simp only [Bool.false_eq_true, if_false, add_zero]
      exact le_trans ih (Nat.le_add_right _ _)
    · simp only [if_neg hx]
      exact Nat.add_le_add_right ih _

theorem countP_updWhere_eq (q p : α → Bool) (f : α → α) (l : List α)
    (hf : ∀ x, p (f x) = p x) :
    (updWhere q f l).countP p = l.countP p := by
  induction l with
  | nil => simp [updWhere]
  | cons x xs ih =>
    simp only [updWhere, List.map_cons, List.countP_cons] at *
    by_cases hx : q x = true
    · simp [if_pos hx, hf x, ih]
    · simp [if_neg hx, ih]

theorem two_le_countP {p : α → Bool} {l : List α} {a b : α}
    (ha : a ∈ l) (hb : b ∈ l) (hab : a ≠ b)
    (pa : p a = true) (pb : p b = true) : 2 ≤ l.countP p := by
  induction l with
  | nil => simp at ha
  | cons x xs ih =>
    rw [List.countP_cons]
    rcases List.mem_cons.mp ha with rfl | ha'
    · have hb' : b ∈ xs := by
        rcases List.mem_cons.mp hb with rfl | h
        · exact absurd rfl hab
        · exact h
      have h1 : 0 < xs.countP p := List.countP_pos_iff.mpr ⟨b, hb', pb⟩
      rw [pa]
      show 2 ≤ xs.countP p + 1
      omega
    · rcases List.mem_cons.mp hb with rfl | hb'
      · have h1 : 0 < xs.countP p := List.countP_pos_iff.mpr ⟨a, ha', pa⟩
        rw [pb]
        show 2 ≤ xs.countP p + 1
        omega
      · have := ih ha' hb'
        omega

theorem insertLe_ne_nil {le : α → α → Bool} {x : α} {l : List α} :
    insertLe le x l ≠ [] := by
  cases l with
  | nil => simp [insertLe]
  | cons y ys =>
    simp only [insertLe]
    split <;> simp

theorem sortLe_eq_nil_iff {le : α → α → Bool} {l : List α} :
    sortLe le l = [] ↔ l = [] := by
  cases l with
  | nil => simp [sortLe]
  | cons x xs => simp [sortLe, insertLe_ne_nil]

/-! ### Lemmas about the active-session query -/

theorem getActiveSession_eq_none {db : DB} :
    getActiveSession db = none ↔
      ∀ s ∈ db.sessions, s.status ≠ SessionStatus.active := by
  unfold getActiveSession
  rw [List.head?_eq_none_iff, sortLe_eq_nil_iff, List.filter_eq_nil_iff]
  simp

theorem getActiveSession_some_mem {db : DB} {s : Session}
    (h : getActiveSession db = some s) :
    s ∈ db.sessions ∧ s.status = SessionStatus.active := by
  unfold getActiveSession at h
  have hm := List.mem_of_mem_head? h
  rw [mem_sortLe, List.mem_filter] at hm
  exact ⟨hm.1, by simpa using hm.2⟩

/-! ### Lemmas about lookups -/

theorem find?_id_self {l : List User} {u : User}
    (hnd : (l.map User.id).Nodup) (hu : u ∈ l) :
    l.find? (fun v => decide (v.id = u.id)) = some u := by
  induction l with
  | nil => simp at hu
  | cons x xs ih =>
    simp only [List.map_cons, List.nodup_cons] at hnd
    rcases List.mem_cons.mp hu with rfl | hu'
    · simp [List.find?_cons]
    · have hne : ¬ (x.id = u.id) := by
        intro hid
        exact hnd.1 (hid ▸ List.mem_map_of_mem User.id hu')
      rw [List.find?_cons_of_neg _ (by simp [hne])]
      exact ih hnd.2 hu'

theorem userGetByID_self {db : DB} {u : User}
    (hnd : (db.users.map User.id).Nodup) (hu : u ∈ db.users) :
    userGetByID db u.id = some u :=
  find?_id_self hnd hu

/-! ### Frame lemmas: which tables each operation leaves unchanged -/

theorem addResponse_sessions (db : DB) (sid : Nat) (uid : Int)
    (rt : ResponseType) (now : Nat) :
    (addResponse db sid uid rt now).sessions = db.sessions := by
  unfold addResponse
  split <;> rfl

theorem addResponse_users (db : DB) (sid : Nat) (uid : Int)
    (rt : ResponseType) (now : Nat) :
    (addResponse db sid uid rt now).users = db.users := by
  unfold addResponse
  split <;> rfl

theorem setRemoteSvc_sessions (db : DB) (uid : Int) (now : Nat) :
    (SetRemoteStatusSvc db uid now).sessions = db.sessions := rfl

theorem setRemoteSvc_responses (db : DB) (uid : Int) (now : Nat) :
    (SetRemoteStatusSvc db uid now).responses = db.responses := rfl

theorem respond_fst_sessions (db : DB) (sid : Nat) (uid : Int)
    (rt : ResponseType) (now : Nat) :
    (RespondToSession db sid uid rt now).1.sessions = db.sessions := by
  unfold RespondToSession
  cases h : sessionGetByID db sid with
  | none => rfl
  | some s =>
    by_cases hs : s.status ≠ SessionStatus.active
    · simp [if_pos hs]
    · simp only [if_neg hs]
      rw [addResponse_sessions]
      split <;> rfl

/-! ### Preservation of the at-most-one-active invariant -/

theorem activeCount_empty : activeCount DB.empty = 0 := rfl

theorem activeCount_start (db : DB) (i : Int) (now : Nat)
    (h : activeCount db ≤ 1) : activeCount (StartSession db i now).1 ≤ 1 := by
  unfold StartSession
  cases hg : getActiveSession db with
  | some s => exact h
  | none =>
    have h0 := getActiveSession_eq_none.mp hg
    have hz : db.sessions.countP (fun s => decide (s.status = SessionStatus.active)) = 0 := by
      rw [List.countP_eq_zero]
      intro a ha
      simpa using h0 a ha
    show (db.sessions ++ [_]).countP _ ≤ 1
    rw [List.countP_append, hz]
    simp

theorem activeCount_complete_le (db : DB) (sid : Nat) (now : Nat) :
    activeCount (completeSessionRepo db sid now) ≤ activeCount db := by
  unfold activeCount completeSessionRepo
  exact countP_updWhere_le _ (fun x _ => rfl)

theorem activeCount_cancel (db : DB) (sid : Nat) (now : Nat)
    (h : activeCount db ≤ 1) : activeCount (CancelSessionSvc db sid now).1 ≤ 1 := by
  unfold CancelSessionSvc
  cases hg : sessionGetByID db sid with
  | none => exact h
  | some s =>
    refine le_trans ?_ h
    unfold activeCount sessionUpdate
    exact countP_updWhere_le _ (fun x _ => rfl)

theorem activeCount_auto (db : DB) (now : Nat)
    (h : activeCount db ≤ 1) : activeCount (AutoCompleteOldSessions db now).1 ≤ 1 := by
  unfold AutoCompleteOldSessions
  cases hg : getActiveSession db with
  | none => exact h
  | some s =>
    by_cases hc : 15 * 60 < now - s.createdAt
    · simp only [if_pos hc]
      exact le_trans (activeCount_complete_le db s.id now) h
    · simp only [if_neg hc]
      exact h

theorem activeCount_cleanup (db : DB) (now : Nat)
    (h : activeCount db ≤ 1) : activeCount (CleanupOldSessions db now) ≤ 1 := by
  unfold CleanupOldSessions
  cases hg : getActiveSession db with
  | none => exact h
  | some s =>
    by_cases hc : 60 * 60 < now - s.createdAt
    · simp only [if_pos hc]
      exact le_trans (activeCount_complete_le db s.id now) h
    · simp only [if_neg hc]
      exact h

theorem reachable_activeCount {db : DB} (h : Reachable db) : activeCount db ≤ 1 := by
  induction h with
  | init => exact Nat.le_of_eq activeCount_empty |>.trans (Nat.zero_le 1) |>.trans (le_refl 1)
  | start i now _ ih => exact activeCount_start _ i now ih
  | respond sid uid rt now _ ih =>
    unfold activeCount at *
    rw [respond_fst_sessions]
    exact ih
  | cancel sid now _ ih => exact activeCount_cancel _ sid now ih
  | complete sid now _ ih =>
    exact le_trans (activeCount_complete_le _ sid now) ih
  | autoComplete now _ ih => exact activeCount_auto _ now ih
  | cleanup now _ ih => exact activeCount_cleanup _ now ih

theorem start_fails_of_active {db : DB} (i : Int) (now : Nat)
    (h : ∃ s ∈ db.sessions, s.status = SessionStatus.active) :
    (StartSession db i now).2 = Except.error SmokeErr.sessionAlreadyActive := by
  unfold StartSession
  cases hg : getActiveSession db with
  | some s => rfl
  | none =>
    obtain ⟨s, hs, ha⟩ := h
    exact absurd ha (getActiveSession_eq_none.mp hg s hs)

/-! ### The claims -/

/-- Claim C1: in every state reachable by any sequence of the coordinator
operations (`startSession`, `respondToSession`, `cancelSession`,
`completeSession`, `autoCompleteStale`) the store holds at most one session
with status `active`, and `startSession` fails with `SessionAlreadyActive`
whenever an active session exists — so among any calls of `startSession`
at most one succeeds while a session is active. -/
theorem C1_single_active_invariant {db : DB} (h : Reachable db) :
    activeCount db ≤ 1 ∧
      ∀ (i : Int) (now : Nat),
        (∃ s ∈ db.sessions, s.status = SessionStatus.active) →
        (StartSession db i now).2 = Except.error SmokeErr.sessionAlreadyActive :=
  ⟨reachable_activeCount h, fun i now hex => start_fails_of_active i now hex⟩

/-- Witness for C1 at the state reached by one `startSession` from a fresh
database. -/
theorem C1_single_active_invariant_witness :
    activeCount (StartSession DB.empty 1 0).1 ≤ 1 :=
  (C1_single_active_invariant (Reachable.start 1 0 Reachable.init)).1

/-- Claim C2: `startSession(initiatorId)` fails with `SessionAlreadyActive`
iff an active session exists at the time of the call; when none exists it
appends a fresh session with status `active` and returns it. -/
theorem C2_startSession_iff (db : DB) (i : Int) (now : Nat) :
    ((StartSession db i now).2 = Except.error SmokeErr.sessionAlreadyActive ↔
      ∃ s ∈ db.sessions, s.status = SessionStatus.active) ∧
    ((∀ s ∈ db.sessions, s.status ≠ SessionStatus.active) →
      ∃ ns, StartSession db i now =
          ({ db with sessions := db.sessions ++ [ns],
                     nextSessionID := db.nextSessionID + 1 }, Except.ok ns) ∧
        ns.status = SessionStatus.active ∧ ns.initiatorID = i ∧
        ns.createdAt = now ∧ ns.completedAt = none) := by
  constructor
  · constructor
    · intro hf
      cases hg : getActiveSession db with
      | some s =>
        obtain ⟨hm, ha⟩ := getActiveSession_some_mem hg
        exact ⟨s, hm, ha⟩
      | none =>
        unfold StartSession at hf
        rw [hg] at hf
        exact Except.noConfusion hf
    · exact start_fails_of_active i now
  · intro hnone
    refine ⟨⟨db.nextSessionID, i, SessionStatus.active, now, none⟩, ?_, rfl, rfl, rfl, rfl⟩
    unfold StartSession
    rw [getActiveSession_eq_none.mpr hnone]
    rfl

/-- Witness for C2: starting on a fresh database creates the active
session. -/
theorem C2_startSession_iff_witness :
    ∃ ns, StartSession DB.empty 7 5 =
        ({ DB.empty with sessions := DB.empty.sessions ++ [ns],
                         nextSessionID := DB.empty.nextSessionID + 1 },
          Except.ok ns) ∧
      ns.status = SessionStatus.active ∧ ns.initiatorID = 7 ∧
      ns.createdAt = 5 ∧ ns.completedAt = none :=
  (C2_startSession_iff DB.empty 7 5).2 (by decide)

/-! ### Lookups after a session update -/

theorem sessionGetByID_update_found {db : DB} {sid : Nat} {s s' : Session}
    (h : sessionGetByID db sid = some s) (hid : s'.id = sid) :
    sessionGetByID (sessionUpdate db s') sid =
      some { s with status := s'.status, completedAt := s'.completedAt } := by
  unfold sessionGetByID sessionUpdate at *
  subst hid
  rw [find?_updWhere (fun t => decide (t.id = s'.id))
    (fun t => { t with status := s'.status, completedAt := s'.completedAt })
    db.sessions (fun x hx => hx), h]
  rfl

theorem sessionGetByID_complete_found {db : DB} {sid : Nat} {now : Nat} {s : Session}
    (h : sessionGetByID db sid = some s) :
    sessionGetByID (completeSessionRepo db sid now) sid =
      some { s with status := SessionStatus.completed, completedAt := some now } := by
  unfold sessionGetByID completeSessionRepo at *
  rw [find?_updWhere (fun t => decide (t.id = sid))
    (fun t => { t with status := SessionStatus.completed, completedAt := some now })
    db.sessions (fun x hx => hx), h]
  rfl

theorem sessionGetByID_id {db : DB} {sid : Nat} {s : Session}
    (h : sessionGetByID db sid = some s) : s.id = sid := by
  unfold sessionGetByID at h
  simpa using List.find?_some h

/-- An already-Completed session, to exercise the terminal states. -/
def exSessionC3 : Session := ⟨1, 10, SessionStatus.completed, 0, some 50⟩

def exDBC3 : DB := ⟨[], [exSessionC3], [], 2, 1⟩

/-- Claim C3 counterexample: `cancelSession` on an already-Completed session
does not fail with a domain error — it silently succeeds and overwrites the
terminal status and completion time (Completed at time 50 becomes Cancelled
at time 200), contradicting the claimed terminality. -/
theorem C3_counterexample :
    (CancelSessionSvc exDBC3 1 200).2 = Except.ok () ∧
    (CancelSessionSvc exDBC3 1 200).1.sessions =
      [⟨1, 10, SessionStatus.cancelled, 0, some 200⟩] :=
  ⟨rfl, by decide⟩

/-- Claim C3 (amended): Completed and Cancelled are not terminal in the
code — neither `completeSession` nor `cancelSession` guards on the stored
status. On any existing session, of any status, `cancelSession` silently
succeeds and rewrites status to Cancelled with completion time now, and
`completeSession` rewrites status to Completed with completion time now; a
Cancelled session can be overwritten to Completed and vice versa. -/
theorem C3_terminal_overwrite (db : DB) (sid : Nat) (now : Nat) (s : Session)
    (h : sessionGetByID db sid = some s) :
    (CancelSessionSvc db sid now).2 = Except.ok () ∧
    sessionGetByID (CancelSessionSvc db sid now).1 sid =
      some { s with status := SessionStatus.cancelled, completedAt := some now } ∧
    sessionGetByID (CompleteSessionSvc db sid now) sid =
      some { s with status := SessionStatus.completed, completedAt := some now } := by
  refine ⟨?_, ?_, ?_⟩
  · unfold CancelSessionSvc
    rw [h]
  · have hs : s.id = sid := sessionGetByID_id h
    have hid : ({ s with status := SessionStatus.cancelled, completedAt := some now } : Session).id = sid := hs
    unfold CancelSessionSvc
    rw [h]
    exact sessionGetByID_update_found h hid
  · unfold CompleteSessionSvc
    exact sessionGetByID_complete_found h

/-- Witness for the amended C3 at a concrete Completed session. -/
theorem C3_terminal_overwrite_witness :
    sessionGetByID (CompleteSessionSvc exDBC3 1 77) 1 =
      some { exSessionC3 with status := SessionStatus.completed,
                              completedAt := some 77 } :=
  (C3_terminal_overwrite exDBC3 1 77 exSessionC3 (by decide)).2.2

def exDBC6 : DB := ⟨[], [⟨1, 5, SessionStatus.completed, 0, some 40⟩], [], 2, 1⟩

/-- Claim C6 counterexample: the service-level `cancelSession` does not fail
with `SessionNotActive` when the session's status is not Active — cancelling
a Completed session succeeds — and the operation takes no `requestedBy`
argument, so no `NotInitiator` failure can arise at this level. -/
theorem C6_counterexample :
    (sessionGetByID exDBC6 1).map Session.status = some SessionStatus.completed ∧
    (CancelSessionSvc exDBC6 1 300).2 = Except.ok () :=
  ⟨by decide, rfl⟩

/-- Claim C6 (amended): the service `cancelSession(sessionId)` fails with
`SessionNotFound` on an unknown id and otherwise succeeds unconditionally —
no `SessionNotActive` check — setting status Cancelled and completion time
now. The initiator test lives only in the bot's `/cancel` handler, which
resolves the current active session and rejects a non-initiator without
touching the store. -/
theorem C6_cancel_spec (db : DB) (sid : Nat) (now : Nat) (fromID : Int) :
    (sessionGetByID db sid = none →
      CancelSessionSvc db sid now = (db, Except.error SmokeErr.sessionNotFound)) ∧
    (∀ s, sessionGetByID db sid = some s →
      (CancelSessionSvc db sid now).2 = Except.ok () ∧
      sessionGetByID (CancelSessionSvc db sid now).1 sid =
        some { s with status := SessionStatus.cancelled, completedAt := some now }) ∧
    (getActiveSession db = none →
      handleCancel db fromID now = (db, CancelOutcome.noActive, [])) ∧
    (∀ s, getActiveSession db = some s → s.initiatorID ≠ fromID →
      handleCancel db fromID now = (db, CancelOutcome.notInitiator, [])) := by
  refine ⟨?_, ?_, ?_, ?_⟩
  · intro h
    unfold CancelSessionSvc
    rw [h]
  · intro s h
    constructor
    · unfold CancelSessionSvc
      rw [h]
    · have hs : s.id = sid := sessionGetByID_id h
      have hid : ({ s with status := SessionStatus.cancelled, completedAt := some now } : Session).id = sid := hs
      unfold CancelSessionSvc
      rw [h]
      exact sessionGetByID_update_found h hid
  · intro h
    unfold handleCancel
    rw [h]
  · intro s h hne
    unfold handleCancel
    rw [h]
    simp [hne]

/-- Witness for the amended C6 at a concrete Completed session. -/
theorem C6_cancel_spec_witness :
    (CancelSessionSvc exDBC6 1 500).2 = Except.ok () :=
  ((C6_cancel_spec exDBC6 1 500 9).2.1
    ⟨1, 5, SessionStatus.completed, 0, some 40⟩ (by decide)).1

/-! ### The response upsert -/

theorem addResponse_count (db : DB) (sid : Nat) (uid : Int)
    (rt : ResponseType) (now : Nat)
    (h : db.responses.countP (pairPred sid uid) ≤ 1) :
    (addResponse db sid uid rt now).responses.countP (pairPred sid uid) = 1 ∧
    ∀ r ∈ (addResponse db sid uid rt now).responses,
      pairPred sid uid r = true → r.response = rt ∧ r.createdAt = now := by
  unfold addResponse
  by_cases hany : db.responses.any (pairPred sid uid) = true
  · rw [if_pos hany]
    constructor
    · show (updWhere (pairPred sid uid) _ db.responses).countP (pairPred sid uid) = 1
      rw [countP_updWhere_eq (pairPred sid uid) (pairPred sid uid)
        (fun r => { r with response := rt, createdAt := now }) db.responses
        (fun x => rfl)]
      obtain ⟨r, hr, hp⟩ := List.any_eq_true.mp hany
      have h1 : 0 < db.responses.countP (pairPred sid uid) :=
        List.countP_pos_iff.mpr ⟨r, hr, hp⟩
      omega
    · intro r hr hp
      obtain ⟨x, hx, hfx⟩ := List.mem_map.mp hr
      by_cases hq : pairPred sid uid x = true
      · rw [if_pos hq] at hfx
        subst hfx
        exact ⟨rfl, rfl⟩
      · rw [if_neg hq] at hfx
        subst hfx
        exact absurd hp hq
  · rw [if_neg hany]
    have h0 : ∀ x ∈ db.responses, ¬ pairPred sid uid x = true := by
      intro x hx hp
      exact hany (List.any_eq_true.mpr ⟨x, hx, hp⟩)
    have hz : db.responses.countP (pairPred sid uid) = 0 :=
      List.countP_eq_zero.mpr h0
    constructor
    · show (db.responses ++ [_]).countP (pairPred sid uid) = 1
      rw [List.countP_append, hz]
      simp [pairPred]
    · intro r hr hp
      rcases List.mem_append.mp hr with hr' | hr'
      · exact absurd hp (h0 r hr')
      · rcases List.mem_singleton.mp hr' with rfl
        exact ⟨rfl, rfl⟩

theorem remoteBranch_responses (db : DB) (uid : Int) (rt : ResponseType) (now : Nat) :
    (if rt = ResponseType.remote then SetRemoteStatusSvc db uid now
      else db).responses = db.responses := by
  split <;> rfl

theorem respond_active {db : DB} {sid : Nat} {s : Session}
    (h : sessionGetByID db sid = some s) (ha : s.status = SessionStatus.active)
    (uid : Int) (rt : ResponseType) (now : Nat) :
    RespondToSession db sid uid rt now =
      (addResponse
        (if rt = ResponseType.remote then SetRemoteStatusSvc db uid now else db)
        sid uid rt now, Except.ok ()) := by
  unfold RespondToSession
  cases hg : sessionGetByID db sid with
  | none =>
    rw [hg] at h
    exact Option.noConfusion h
  | some t =>
    rw [hg] at h
    injection h with h'
    subst h'
    show (if t.status ≠ SessionStatus.active then (db, Except.error SmokeErr.sessionNotActive)
        else (addResponse (if rt = ResponseType.remote then SetRemoteStatusSvc db uid now else db)
          sid uid rt now, Except.ok ())) =
      (addResponse (if rt = ResponseType.remote then SetRemoteStatusSvc db uid now else db)
        sid uid rt now, Except.ok ())
    rw [if_neg (show ¬ (t.status ≠ SessionStatus.active) from fun hc => hc ha)]

/-- Claim C5: response recording is an idempotent upsert keyed on
(sessionId, participantId): two `respondToSession` calls by the same
participant on the same (active) session leave exactly one Response row for
the pair, carrying the last-applied kind and timestamp. The count
hypothesis is the `UNIQUE(session_id, user_id)` schema constraint. -/
theorem C5_response_upsert (db : DB) (sid : Nat) (uid : Int)
    (k1 k2 : ResponseType) (now1 now2 : Nat) (s : Session)
    (hs : sessionGetByID db sid = some s) (hact : s.status = SessionStatus.active)
    (hcnt : db.responses.countP (pairPred sid uid) ≤ 1) :
    (RespondToSession db sid uid k1 now1).2 = Except.ok () ∧
    (RespondToSession (RespondToSession db sid uid k1 now1).1 sid uid k2 now2).2 =
      Except.ok () ∧
    ((RespondToSession (RespondToSession db sid uid k1 now1).1 sid uid k2 now2).1.responses.countP
      (pairPred sid uid)) = 1 ∧
    ∀ r ∈ (RespondToSession (RespondToSession db sid uid k1 now1).1 sid uid k2 now2).1.responses,
      pairPred sid uid r = true → r.response = k2 ∧ r.createdAt = now2 := by
  have e1 := respond_active hs hact uid k1 now1
  have hsess1 : (RespondToSession db sid uid k1 now1).1.sessions = db.sessions :=
    respond_fst_sessions db sid uid k1 now1
  have hs1 : sessionGetByID (RespondToSession db sid uid k1 now1).1 sid = some s := by
    unfold sessionGetByID
    rw [hsess1]
    exact hs
  have e2 := respond_active hs1 hact uid k2 now2
  have hresp1 : (RespondToSession db sid uid k1 now1).1.responses.countP
      (pairPred sid uid) = 1 := by
    rw [e1]
    have hb : (if k1 = ResponseType.remote then SetRemoteStatusSvc db uid now1
        else db).responses.countP (pairPred sid uid) ≤ 1 := by
      rw [remoteBranch_responses]
      exact hcnt
    exact (addResponse_count _ sid uid k1 now1 hb).1
  have hcnt2 : (RespondToSession (RespondToSession db sid uid k1 now1).1 sid uid k2 now2).1.responses.countP
        (pairPred sid uid) = 1 ∧
      ∀ r ∈ (RespondToSession (RespondToSession db sid uid k1 now1).1 sid uid k2 now2).1.responses,
        pairPred sid uid r = true → r.response = k2 ∧ r.createdAt = now2 := by
    rw [e2]
    have hb : (if k2 = ResponseType.remote then
        SetRemoteStatusSvc (RespondToSession db sid uid k1 now1).1 uid now2
        else (RespondToSession db sid uid k1 now1).1).responses.countP
          (pairPred sid uid) ≤ 1 := by
      rw [remoteBranch_responses]
      rw [hresp1]
    exact addResponse_count _ sid uid k2 now2 hb
  refine ⟨?_, ?_, hcnt2.1, hcnt2.2⟩
  · rw [e1]
  · rw [e2]

/-- Concrete state for the C5 witness: one active session, one responder. -/
def exDBC5 : DB :=
  ⟨[⟨1, "ann", "A", "", false, none, false, 0, 0⟩,
    ⟨2, "bob", "B", "", false, none, false, 0, 0⟩],
   [⟨1, 1, SessionStatus.active, 0, none⟩], [], 2, 1⟩

/-- Witness for C5: responding accepted then denied leaves one row with
kind denied. -/
theorem C5_response_upsert_witness :
    ((RespondToSession (RespondToSession exDBC5 1 2 ResponseType.accepted 10).1
        1 2 ResponseType.denied 20).1.responses.countP (pairPred 1 2)) = 1 :=
  (C5_response_upsert exDBC5 1 2 ResponseType.accepted ResponseType.denied 10 20
    ⟨1, 1, SessionStatus.active, 0, none⟩ (by decide) (by decide) (by decide)).2.2.1

/-! ### Auto-completion of stale sessions -/

theorem no_active_after_complete {db : DB} {s : Session} (now : Nat)
    (hcnt : activeCount db ≤ 1) (hs : s ∈ db.sessions)
    (ha : s.status = SessionStatus.active) :
    ∀ t ∈ (completeSessionRepo db s.id now).sessions,
      t.status ≠ SessionStatus.active := by
  intro t ht hact
  obtain ⟨x, hx, hfx⟩ := List.mem_map.mp ht
  by_cases hq : decide (x.id = s.id) = true
  · rw [if_pos hq] at hfx
    subst hfx
    simp at hact
  · rw [if_neg hq] at hfx
    subst hfx
    have hxs : s ≠ x := by
      intro he
      exact hq (by rw [← he]; simp)
    have h2 : 2 ≤ db.sessions.countP (fun s => decide (s.status = SessionStatus.active)) :=
      two_le_countP hs hx hxs (decide_eq_true ha) (decide_eq_true hact)
    unfold activeCount at hcnt
    omega

/-- Claim C8: `autoCompleteStale` (source threshold: 15 minutes) is a no-op
when no active session exists or when `now - createdAt ≤ threshold`; when
the threshold is strictly exceeded it completes the active session exactly
once and returns it, and any later call is a no-op again (no active session
remains, given the at-most-one-active schema invariant `hcnt`). -/
theorem C8_autoComplete (db : DB) (now now2 : Nat)
    (hcnt : activeCount db ≤ 1) :
    (getActiveSession db = none → AutoCompleteOldSessions db now = (db, none)) ∧
    (∀ s, getActiveSession db = some s → now - s.createdAt ≤ 15 * 60 →
      AutoCompleteOldSessions db now = (db, none)) ∧
    (∀ s, getActiveSession db = some s → 15 * 60 < now - s.createdAt →
      AutoCompleteOldSessions db now = (completeSessionRepo db s.id now, some s) ∧
      { s with status := SessionStatus.completed, completedAt := some now } ∈
        (completeSessionRepo db s.id now).sessions ∧
      (∀ t ∈ (completeSessionRepo db s.id now).sessions,
        t.status ≠ SessionStatus.active) ∧
      AutoCompleteOldSessions (completeSessionRepo db s.id now) now2 =
        (completeSessionRepo db s.id now, none)) := by
  refine ⟨?_, ?_, ?_⟩
  · intro h
    unfold AutoCompleteOldSessions
    rw [h]
  · intro s h hle
    unfold AutoCompleteOldSessions
    rw [h]
    show (if 15 * 60 < now - s.createdAt then (completeSessionRepo db s.id now, some s)
        else (db, none)) = (db, none)
    rw [if_neg (by omega)]
  · intro s h hlt
    obtain ⟨hmem, hact⟩ := getActiveSession_some_mem h
    have heq : AutoCompleteOldSessions db now = (completeSessionRepo db s.id now, some s) := by
      unfold AutoCompleteOldSessions
      rw [h]
      show (if 15 * 60 < now - s.createdAt then (completeSessionRepo db s.id now, some s)
          else (db, none)) = (completeSessionRepo db s.id now, some s)
      rw [if_pos hlt]
    have hnoact := no_active_after_complete now hcnt hmem hact
    refine ⟨heq, ?_, hnoact, ?_⟩
    · unfold completeSessionRepo updWhere
      refine List.mem_map.mpr ⟨s, hmem, ?_⟩
      simp
    · unfold AutoCompleteOldSessions
      rw [getActiveSession_eq_none.mpr hnoact]

def exDBC8 : DB := ⟨[], [⟨1, 3, SessionStatus.active, 0, none⟩], [], 2, 1⟩

/-- Witness for C8: a session created at time 0 is auto-completed at time
901 (> 15 minutes). -/
theorem C8_autoComplete_witness :
    AutoCompleteOldSessions exDBC8 901 =
      (completeSessionRepo exDBC8 1 901, some ⟨1, 3, SessionStatus.active, 0, none⟩) :=
  ((C8_autoComplete exDBC8 901 902 (by decide)).2.2
    ⟨1, 3, SessionStatus.active, 0, none⟩ (by decide) (by decide)).1

/-! ### The registration upsert -/

theorem userGetByID_id {db : DB} {i : Int} {u : User}
    (h : userGetByID db i = some u) : u.id = i := by
  unfold userGetByID at h
  simpa using List.find?_some h

theorem userGetByID_update_found {db : DB} {i : Int} {u u' : User}
    (h : userGetByID db i = some u) (hid : u'.id = i) (now : Nat) :
    userGetByID (userUpdate db u' now) i =
      some (updateCols (applyHiddenPolicy u') now u) := by
  unfold userGetByID userUpdate at *
  subst hid
  rw [find?_updWhere (fun v => decide (v.id = u'.id))
    (updateCols (applyHiddenPolicy u') now) db.users
    (fun x hx => by simpa [updateCols] using hx), h]
  rfl

/-- Claim C10: re-registering an existing participant stores back a record
where only username, first name, last name (and `updated_at`) change;
`isRemoteToday`, `remoteUntil` and `createdAt` are written back unchanged
from the stored record, and a hidden participant can never become unhidden
(the auto-hide rule only ever sets the flag). -/
theorem C10_register_preserves (db : DB) (i : Int) (un fn ln : String)
    (now : Nat) (u : User) (h : userGetByID db i = some u) :
    ∃ r, userGetByID (RegisterUser db i un fn ln now) i = some r ∧
      r.username = un ∧ r.firstName = fn ∧ r.lastName = ln ∧
      r.isRemoteToday = u.isRemoteToday ∧ r.remoteUntil = u.remoteUntil ∧
      r.createdAt = u.createdAt ∧ r.updatedAt = now ∧
      (u.isHidden = true → r.isHidden = true) ∧
      (un ≠ reservedHiddenName → r.isHidden = u.isHidden) := by
  have hu : u.id = i := userGetByID_id h
  have hid : ({ u with username := un, firstName := fn, lastName := ln } : User).id = i := hu
  refine ⟨updateCols (applyHiddenPolicy
      { u with username := un, firstName := fn, lastName := ln }) now u, ?_, ?_⟩
  · show userGetByID (RegisterUser db i un fn ln now) i = _
    unfold RegisterUser
    rw [h]
    exact userGetByID_update_found h hid now
  · by_cases hr : un = reservedHiddenName <;>
      simp [updateCols, applyHiddenPolicy, hr]

/-- A stored user that is both remote and hidden, for the C10 witness. -/
def exUserC10 : User := ⟨5, "eve", "E", "L", true, some 86399, true, 3, 4⟩

def exDBC10 : DB := ⟨[exUserC10], [], [], 1, 1⟩

/-- Witness for C10: re-registering `exUserC10` with new names keeps the
remote flag, the remote-until timestamp and the hidden flag. -/
theorem C10_register_preserves_witness :
    ∃ r, userGetByID (RegisterUser exDBC10 5 "eve2" "E2" "L2" 99) 5 = some r ∧
      r.username = "eve2" ∧ r.firstName = "E2" ∧ r.lastName = "L2" ∧
      r.isRemoteToday = exUserC10.isRemoteToday ∧
      r.remoteUntil = exUserC10.remoteUntil ∧
      r.createdAt = exUserC10.createdAt ∧ r.updatedAt = 99 ∧
      (exUserC10.isHidden = true → r.isHidden = true) ∧
      ("eve2" ≠ reservedHiddenName → r.isHidden = exUserC10.isHidden) :=
  C10_register_preserves exDBC10 5 "eve2" "E2" "L2" 99 exUserC10 (by decide)

/-! ### The remote-status lifecycle -/

theorem userGetByID_setRemote {db : DB} {u : User}
    (hnd : (db.users.map User.id).Nodup) (hu : u ∈ db.users)
    (untilT now : Nat) :
    userGetByID (setRemoteStatusRepo db u.id untilT now) u.id =
      some { u with isRemoteToday := true, remoteUntil := some untilT,
                    updatedAt := now } := by
  have h := userGetByID_self hnd hu
  unfold userGetByID setRemoteStatusRepo at *
  rw [find?_updWhere (fun v => decide (v.id = u.id))
    (fun v => { v with isRemoteToday := true, remoteUntil := some untilT,
                       updatedAt := now })
    db.users (fun x hx => hx), h]
  rfl

/-- Claim C9: setting remote status (directly, or as the sole user-table
effect of a Remote response) stores `isRemoteToday = true` with
`remoteUntil` = the last second (23:59:59) of the day containing now; once
that moment has passed, the lazy expiry run at the start of
`GetActiveUsers` clears both fields and the participant reappears in the
result, which contains exactly the post-expiry users other than the
excluded id that are neither remote nor hidden. -/
theorem C9_remote_lifecycle (db : DB) (u : User) (now now2 : Nat)
    (excludeID : Int) (t : Nat)
    (hnd : (db.users.map User.id).Nodup) (hu : u ∈ db.users) :
    (userGetByID (SetRemoteStatusSvc db u.id now) u.id =
        some { u with isRemoteToday := true,
                      remoteUntil := some (endOfDay now), updatedAt := now } ∧
      endOfDay now / secondsPerDay = now / secondsPerDay ∧
      endOfDay now % secondsPerDay = secondsPerDay - 1 ∧
      now ≤ endOfDay now) ∧
    (∀ sid s, sessionGetByID db sid = some s → s.status = SessionStatus.active →
      (RespondToSession db sid u.id ResponseType.remote now).1.users =
        (SetRemoteStatusSvc db u.id now).users) ∧
    (u.isRemoteToday = true → u.remoteUntil = some t → t < now2 →
      u.isHidden = false → u.id ≠ excludeID →
      { u with isRemoteToday := false, remoteUntil := none, updatedAt := now2 } ∈
        (GetActiveUsers db excludeID now2).2) ∧
    (∀ v, v ∈ (GetActiveUsers db excludeID now2).2 ↔
      (v ∈ (clearExpiredRemoteStatus db now2).users ∧ v.id ≠ excludeID ∧
        v.isRemoteToday = false ∧ v.isHidden = false)) := by
  refine ⟨⟨?_, ?_, ?_, ?_⟩, ?_, ?_, ?_⟩
  · exact userGetByID_setRemote hnd hu (endOfDay now) now
  · unfold endOfDay secondsPerDay
    omega
  · unfold endOfDay secondsPerDay
    omega
  · unfold endOfDay secondsPerDay
    omega
  · intro sid s hs hact
    rw [respond_active hs hact u.id ResponseType.remote now]
    show (addResponse (if ResponseType.remote = ResponseType.remote
        then SetRemoteStatusSvc db u.id now else db) sid u.id
        ResponseType.remote now).users = _
    rw [addResponse_users, if_pos rfl]
  · intro hr hru ht hh hex
    show _ ∈ (userGetAll (clearExpiredRemoteStatus db now2)).filter _
    rw [List.mem_filter]
    constructor
    · unfold userGetAll
      rw [mem_sortLe]
      unfold clearExpiredRemoteStatus updWhere
      refine List.mem_map.mpr ⟨u, hu, ?_⟩
      have hexp : remoteExpired u now2 = true := by
        unfold remoteExpired
        rw [hru]
        simp [hr, ht]
      rw [if_pos hexp]
    · simp [hex, hh]
  · intro v
    show v ∈ (userGetAll (clearExpiredRemoteStatus db now2)).filter _ ↔ _
    rw [List.mem_filter]
    unfold userGetAll
    rw [mem_sortLe]
    constructor
    · rintro ⟨hm, hp⟩
      simp only [Bool.and_eq_true, Bool.not_eq_true', decide_eq_true_eq] at hp
      exact ⟨hm, hp.1.1, hp.1.2, hp.2⟩
    · rintro ⟨hm, h1, h2, h3⟩
      refine ⟨hm, ?_⟩
      simp [h1, h2, h3]

/-- A remote user whose `remoteUntil` has just passed, for the C9
witness. -/
def exUserC9 : User := ⟨5, "carl", "C", "", true, some 86399, false, 0, 0⟩

def exDBC9 : DB := ⟨[exUserC9], [], [], 1, 1⟩

/-- Witness for C9: one second after `remoteUntil`, the lazy expiry makes
the user eligible again. -/
theorem C9_remote_lifecycle_witness :
    { exUserC9 with isRemoteToday := false, remoteUntil := none,
                    updatedAt := 86400 } ∈ (GetActiveUsers exDBC9 9 86400).2 :=
  (C9_remote_lifecycle exDBC9 exUserC9 50000 86400 9 86399 (by decide)
    (by decide)).2.2.1 (by decide) (by decide) (by decide) (by decide) (by decide)

/-! ### Cancellation recipients -/

theorem mem_getResponses {db : DB} {sid : Nat} {r : SessionResponse} :
    r ∈ getResponses db sid ↔ r ∈ db.responses ∧ r.sessionID = sid := by
  unfold getResponses
  rw [mem_sortLe, List.mem_filter]
  simp

theorem respondentsGo_sound {db : DB} {u : User} :
    ∀ (rs : List SessionResponse) (seen : List Int),
      u ∈ respondentsGo db rs seen →
      ∃ r ∈ rs, (r.response = ResponseType.accepted ∨
        r.response = ResponseType.acceptedDelayed) ∧
        userGetByID db r.userID = some u := by
  intro rs
  induction rs with
  | nil =>
    intro seen h
    simp [respondentsGo] at h
  | cons r0 rs ih =>
    intro seen h
    unfold respondentsGo at h
    by_cases hc : (r0.response = ResponseType.accepted ∨
        r0.response = ResponseType.acceptedDelayed) ∧ r0.userID ∉ seen
    · rw [if_pos hc] at h
      cases hl : userGetByID db r0.userID with
      | some v =>
        rw [hl] at h
        rcases List.mem_cons.mp h with rfl | h'
        · exact ⟨r0, List.mem_cons_self r0 rs, hc.1, hl⟩
        · obtain ⟨r, hr, hp, hu2⟩ := ih _ h'
          exact ⟨r, List.mem_cons_of_mem r0 hr, hp, hu2⟩
      | none =>
        rw [hl] at h
        obtain ⟨r, hr, hp, hu2⟩ := ih _ h
        exact ⟨r, List.mem_cons_of_mem r0 hr, hp, hu2⟩
    · rw [if_neg hc] at h
      obtain ⟨r, hr, hp, hu2⟩ := ih _ h
      exact ⟨r, List.mem_cons_of_mem r0 hr, hp, hu2⟩

theorem respondentsGo_complete {db : DB} {u : User} :
    ∀ (rs : List SessionResponse) (seen : List Int) (r : SessionResponse),
      r ∈ rs → (r.response = ResponseType.accepted ∨
        r.response = ResponseType.acceptedDelayed) →
      userGetByID db r.userID = some u → r.userID ∉ seen →
      u ∈ respondentsGo db rs seen := by
  intro rs
  induction rs with
  | nil =>
    intro seen r hr
    simp at hr
  | cons r0 rs ih =>
    intro seen r hr hp hu2 hseen
    unfold respondentsGo
    by_cases hc : (r0.response = ResponseType.accepted ∨
        r0.response = ResponseType.acceptedDelayed) ∧ r0.userID ∉ seen
    · rw [if_pos hc]
      cases hl : userGetByID db r0.userID with
      | some v =>
        by_cases hid : r.userID = r0.userID
        · rw [← hid] at hl
          rw [hl] at hu2
          injection hu2 with hvu
          subst hvu
          exact List.mem_cons_self v _
        · rcases List.mem_cons.mp hr with rfl | hr'
          · exact absurd rfl hid
          · refine List.mem_cons_of_mem v (ih _ r hr' hp hu2 ?_)
            intro hmem
            rcases List.mem_cons.mp hmem with he | hmem'
            · exact hid he
            · exact hseen hmem'
      | none =>
        by_cases hid : r.userID = r0.userID
        · rw [← hid] at hl
          rw [hl] at hu2
          exact Option.noConfusion hu2
        · rcases List.mem_cons.mp hr with rfl | hr'
          · exact absurd rfl hid
          · refine ih _ r hr' hp hu2 ?_
            intro hmem
            rcases List.mem_cons.mp hmem with he | hmem'
            · exact hid he
            · exact hseen hmem'
    · rw [if_neg hc]
      rcases List.mem_cons.mp hr with rfl | hr'
      · exact absurd ⟨hp, hseen⟩ hc
      · exact ih _ r hr' hp hu2 hseen

/-- A session whose only response is Denied, for the C7 counterexample. -/
def exDBC7 : DB :=
  ⟨[⟨10, "alice", "A", "", false, none, false, 0, 0⟩,
    ⟨2, "bob", "B", "", false, none, false, 0, 0⟩],
   [⟨1, 10, SessionStatus.active, 0, none⟩],
   [⟨1, 1, 2, ResponseType.denied, 5⟩], 2, 2⟩

/-- Claim C7 counterexample: user 2 has a (Denied) response on session 1
and is not the canceller (user 10), yet the cancellation recipient set is
empty — `GetSessionRespondents` keeps only Accepted / AcceptedDelayed
responders, contradicting "any response of any kind". -/
theorem C7_counterexample :
    exDBC7.responses = [⟨1, 1, 2, ResponseType.denied, 5⟩] ∧
    cancelRecipientsUsers exDBC7 1 10 = [] :=
  ⟨rfl, by decide⟩

/-- Claim C7 (amended): the cancellation notice goes exactly to the users
with an Accepted or AcceptedDelayed response on the session, excluding the
canceller; participants whose only response is Denied or Remote receive
nothing. -/
theorem C7_cancel_recipients (db : DB) (sid : Nat) (cid : Int) (u : User) :
    u ∈ cancelRecipientsUsers db sid cid ↔
      (u.id ≠ cid ∧ ∃ r ∈ db.responses, r.sessionID = sid ∧
        (r.response = ResponseType.accepted ∨
          r.response = ResponseType.acceptedDelayed) ∧
        userGetByID db r.userID = some u) := by
  unfold cancelRecipientsUsers GetSessionRespondents
  rw [List.mem_filter]
  constructor
  · rintro ⟨hm, hp⟩
    obtain ⟨r, hr, hkind, hlook⟩ := respondentsGo_sound _ _ hm
    rw [mem_getResponses] at hr
    exact ⟨by simpa using hp, r, hr.1, hr.2, hkind, hlook⟩
  · rintro ⟨hne, r, hr, hsid, hkind, hlook⟩
    refine ⟨?_, by simpa using hne⟩
    exact respondentsGo_complete _ _ r (mem_getResponses.mpr ⟨hr, hsid⟩)
      hkind hlook (List.not_mem_nil r.userID)

/-- A session with one Accepted response, for the C7 witness. -/
def exDBC7b : DB :=
  ⟨[⟨10, "al", "A", "", false, none, false, 0, 0⟩,
    ⟨2, "bo", "B", "", false, none, false, 0, 0⟩],
   [⟨1, 10, SessionStatus.active, 0, none⟩],
   [⟨1, 1, 2, ResponseType.accepted, 5⟩], 2, 2⟩

/-- Witness for the amended C7: the accepted responder is a recipient. -/
theorem C7_cancel_recipients_witness :
    (⟨2, "bo", "B", "", false, none, false, 0, 0⟩ : User) ∈
      cancelRecipientsUsers exDBC7b 1 10 :=
  (C7_cancel_recipients exDBC7b 1 10
    ⟨2, "bo", "B", "", false, none, false, 0, 0⟩).mpr (by decide)

/-! ### Hidden-participant suppression -/

theorem notifyOK_of_hidden {db : DB} {u : User}
    (hnd : (db.users.map User.id).Nodup) (hu : u ∈ db.users)
    (hh : u.isHidden = true) : notifyOK db u.id = false := by
  unfold notifyOK
  rw [userGetByID_self hnd hu]
  show (!u.isHidden) = false
  rw [hh]
  rfl

theorem mem_responseNotifyRecipients {db : DB} {s : Session} {rid : Int}
    {rt : ResponseType} {x : Int}
    (h : x ∈ responseNotifyRecipients db s rid rt) : notifyOK db x = true := by
  unfold responseNotifyRecipients at h
  split at h
  · simp at h
  · rcases List.mem_append.mp h with h1 | h2
    · split at h1
      case isTrue hc =>
        rcases List.mem_singleton.mp h1 with rfl
        exact hc.2
      case isFalse => simp at h1
    · split at h2
      · obtain ⟨r, hr, hfm⟩ := List.mem_filterMap.mp h2
        split at hfm
        · exact Option.noConfusion hfm
        · split at hfm
          case isTrue hc =>
            injection hfm with he
            subst he
            exact hc.2
          case isFalse => exact Option.noConfusion hfm
      · simp at h2

theorem mem_completedGo {db : DB} {x : Int} :
    ∀ (rs : List SessionResponse) (notified : List Int),
      x ∈ completedGo db rs notified → notifyOK db x = true := by
  intro rs
  induction rs with
  | nil =>
    intro notified h
    simp [completedGo] at h
  | cons r0 rs ih =>
    intro notified h
    unfold completedGo at h
    split at h
    · rcases List.mem_append.mp h with h1 | h2
      · split at h1
        case isTrue hOK =>
          rcases List.mem_singleton.mp h1 with rfl
          exact hOK
        case isFalse => simp at h1
      · exact ih _ h2
    · exact ih _ h

theorem mem_autoCompletedRecipients {db : DB} {s : Session} {x : Int}
    (h : x ∈ autoCompletedRecipients db s) : notifyOK db x = true := by
  unfold autoCompletedRecipients at h
  rcases List.mem_append.mp h with h1 | h2
  · split at h1
    case isTrue hOK =>
      rcases List.mem_singleton.mp h1 with rfl
      exact hOK
    case isFalse => simp at h1
  · exact mem_completedGo _ _ h2

theorem summaryUsers_not_hidden {db : DB} {sid : Nat}
    {p : ResponseType × User} (h : p ∈ summaryUsers db sid) :
    p.2.isHidden = false := by
  unfold summaryUsers at h
  obtain ⟨r, hr, hfm⟩ := List.mem_filterMap.mp h
  split at hfm
  · exact Option.noConfusion hfm
  · split at hfm
    case isTrue => exact Option.noConfusion hfm
    case isFalse hh =>
      injection hfm with he
      subst he
      simpa using hh

theorem getActiveUsers_not_hidden {db : DB} {ex : Int} {now : Nat} {v : User}
    (h : v ∈ (GetActiveUsers db ex now).2) : v.isHidden = false := by
  simp only [GetActiveUsers] at h
  rw [List.mem_filter] at h
  have hp := h.2
  simp only [Bool.and_eq_true, Bool.not_eq_true'] at hp
  exact hp.2

/-- A state with a non-hidden initiator (1) and a hidden accepted
respondent (2) on the active session. -/
def exDBC4 : DB :=
  ⟨[⟨1, "boss", "I", "", false, none, false, 0, 0⟩,
    ⟨2, "ghost", "G", "", false, none, true, 0, 0⟩],
   [⟨1, 1, SessionStatus.active, 0, none⟩],
   [⟨1, 1, 2, ResponseType.accepted, 5⟩], 2, 2⟩

/-- Claim C4 counterexample: hidden user 2, who responded Accepted, is a
recipient of the session-cancelled notice — `handleCancel` messages every
accepted respondent other than the canceller with no hidden check, so the
suppression does not hold for the session-cancelled event type. -/
theorem C4_counterexample :
    (userGetByID exDBC4 2).map User.isHidden = some true ∧
    (handleCancel exDBC4 1 100).2.2 = [2] :=
  ⟨by decide, by decide⟩

/-- Claim C4 (amended): a hidden participant never contributes an entry (so
never a display name) to the `getSummary` name groups, is never chosen by
`GetActiveUsers` (the session-started invitation recipients), and never
receives a response notification or an auto-complete notice; the
session-cancelled notice, however, is not suppressed for hidden accepted
respondents (see the counterexample), and no guarantee covers a hidden
initiator's own name inside the invitation text. -/
theorem C4_hidden_suppressed (db : DB) (u : User)
    (hnd : (db.users.map User.id).Nodup) (hu : u ∈ db.users)
    (hh : u.isHidden = true) :
    (∀ sid p, p ∈ summaryUsers db sid → p.2.isHidden = false) ∧
    (∀ ex now v, v ∈ (GetActiveUsers db ex now).2 → v.isHidden = false) ∧
    (∀ s rid rt, u.id ∉ responseNotifyRecipients db s rid rt) ∧
    (∀ s, u.id ∉ autoCompletedRecipients db s) := by
  have hOK : notifyOK db u.id = false := notifyOK_of_hidden hnd hu hh
  refine ⟨?_, ?_, ?_, ?_⟩
  · intro sid p hp
    exact summaryUsers_not_hidden hp
  · intro ex now v hv
    exact getActiveUsers_not_hidden hv
  · intro s rid rt hmem
    rw [mem_responseNotifyRecipients hmem] at hOK
    exact Bool.noConfusion hOK
  · intro s hmem
    rw [mem_autoCompletedRecipients hmem] at hOK
    exact Bool.noConfusion hOK

/-- Witness for the amended C4: the hidden user of `exDBC4` receives no
auto-complete notice. -/
theorem C4_hidden_suppressed_witness :
    (2 : Int) ∉ autoCompletedRecipients exDBC4 ⟨1, 1, SessionStatus.active, 0, none⟩ :=
  (C4_hidden_suppressed exDBC4 ⟨2, "ghost", "G", "", false, none, true, 0, 0⟩
    (by decide) (by decide) (by decide)).2.2.2 ⟨1, 1, SessionStatus.active, 0, none⟩

end SmokeBot
